import Mathlib

/-!
Verification development for the request/response mediation layer of the
nylas-python legacy client (`nylas/client/client.py` and its pagination
behaviour exercised by `tests/test_filter.py`).

The Python source is shallowly embedded: the result of a JSON parse is
represented as an `Option Json` (with `none` standing for a `ValueError`
from `json.loads`), fallible Python code returns `Except PyExc`, and the
client object is explicit state passed to each operation.
-/

/-- Parsed JSON values, as produced by Python's `json.loads`. -/
inductive Json where
  | null : Json
  | bool (b : Bool) : Json
  | num (n : Int) : Json
  | str (s : String) : Json
  | arr (xs : List Json) : Json
  | obj (fields : List (String × Json)) : Json

/-- Python truth of `x is None` for a parsed JSON value. -/
def Json.isNull : Json → Bool
  | .null => true
  | _ => false

/-- The error taxonomy of the spec (section 7).  The concrete error classes
live in `nylas/client/errors.py`, which is not under `src/`; the kinds are
the spec's names for the classes imported in `client.py` lines 16-21
(`UnknownStatus` is `APIClientError`, `ConnectionFailure` is
`ConnectionError`). -/
inductive ErrorKind where
  | ConnectionFailure : ErrorKind
  | InvalidRequest : ErrorKind
  | NotAuthorized : ErrorKind
  | MessageRejected : ErrorKind
  | NotFound : ErrorKind
  | MethodNotSupported : ErrorKind
  | Conflict : ErrorKind
  | SendingQuotaExceeded : ErrorKind
  | Server : ErrorKind
  | ServiceUnavailable : ErrorKind
  | ServerTimeout : ErrorKind
  | UnknownStatus : ErrorKind
deriving DecidableEq

/-- Request-body context attached to an error by `_validate`: the parsed
JSON body when it parses, otherwise the raw body string (client.py lines
48-51 leave `data` as the original string when `json.loads` fails). -/
abbrev ReqData := Json ⊕ String

/-- Modelled from the spec: the error object of `nylas/client/errors.py`
(not under `src/`).  Per the spec's data model, an error carries
`{kind, url, statusCode, requestBody, serverMessage?}`; fields absent from
a given raise site are `none`. -/
structure NylasError where
  kind : ErrorKind
  url : Option String := none
  status_code : Option Nat := none
  data : Option ReqData := none
  message : Option Json := none
  server_error : Option Json := none

/-- An exception escaping an operation: either an error of the Nylas
taxonomy, or an ordinary uncaught Python exception. -/
inductive PyExc where
  | api (e : NylasError) : PyExc
  | valueError : PyExc
  | typeError : PyExc
  | indexError : PyExc

/-- The request attached to a response.  `body` is the raw request body
(`none` when no body was sent); `bodyJson` is the outcome of
`json.loads body` (`none` when parsing would raise). -/
structure HRequest where
  url : String
  body : Option String := none
  bodyJson : Option Json := none

/-- An HTTP response as seen by `_validate`: status code plus the outcome
of parsing `response.text` as JSON (`none` when `json.loads` would raise
`ValueError`). -/
structure HResponse where
  request : HRequest
  status_code : Nat
  textJson : Option Json := none

/-- Lines 42 and 48-51 of client.py: `data = request.body`, then
`data = json.loads(data) if data else None`, with parse failures leaving
`data` as the raw string.  An empty string is falsy in Python, hence maps
to `none`. -/
def requestData (r : HRequest) : Option ReqData :=
  match r.body with
  | none => none
  | some s =>
      if s = "" then none
      else
        match r.bodyJson with
        | some j => some (Sum.inl j)
        | none => some (Sum.inr s)

/-- The status-code table of `_validate` (client.py lines 28-38).  A dict
lookup is key-equality search, embedded as an if-chain. -/
def status_code_to_exc (status_code : Nat) : Option ErrorKind :=
  if status_code = 400 then some .InvalidRequest
  else if status_code = 401 then some .NotAuthorized
  else if status_code = 402 then some .MessageRejected
  else if status_code = 403 then some .NotAuthorized
  else if status_code = 404 then some .NotFound
  else if status_code = 405 then some .MethodNotSupported
  else if status_code = 409 then some .Conflict
  else if status_code = 429 then some .SendingQuotaExceeded
  else if status_code = 500 then some .Server
  else if status_code = 503 then some .ServiceUnavailable
  else if status_code = 504 then some .ServerTimeout
  else none

/-- Whether the first character list is an initial segment of the
second. -/
def leadsWith : List Char → List Char → Bool
  | [], _ => true
  | _ :: _, [] => false
  | p :: ps, c :: cs => p = c && leadsWith ps cs

/-- Whether the pattern occurs as a contiguous segment of the list. -/
def occursIn (pat : List Char) : List Char → Bool
  | [] => leadsWith pat []
  | c :: cs => leadsWith pat (c :: cs) || occursIn pat cs

/-- Python substring test `pat in s`. -/
def containsSub (s pat : String) : Bool :=
  occursIn pat.data s.data

/-- Python `key in x` for a parsed JSON value `x`: dict key membership,
list element membership, substring test on strings; on any other value
Python raises `TypeError` (modelled as `Except.error ()`). -/
def pyContains (j : Json) (key : String) : Except Unit Bool :=
  match j with
  | .obj fs => .ok (fs.any (fun p => p.1 = key))
  | .arr xs =>
      .ok (xs.any (fun x =>
        match x with
        | .str s => s = key
        | _ => false))
  | .str s => .ok (containsSub s key)
  | _ => .error ()

/-- Lines 62-64 of client.py for one key: `if key in response:
kwargs[key] = response[key]`.  Membership on a non-iterable raises
`TypeError`; indexing a list or string with a string key also raises
`TypeError`.  Both are caught by the surrounding `except` clause. -/
def extractKey (j : Json) (key : String) : Except Unit (Option Json) := do
  let present ← pyContains j key
  if present then
    match j with
    | .obj fs => .ok ((fs.find? (fun p => p.1 = key)).map (fun p => p.2))
    | _ => .error ()
  else
    .ok none

/-- The `try` block of `_validate` lines 57-70: parse `response.text`,
extract `message` and `server_error` when possible, and on any
`ValueError` or `TypeError` fall back to the generic `"Malformed"`
message.  The error kind `cls` was fixed by the status code before the
block and is used in every branch. -/
def raisedError (cls : ErrorKind) (url : String) (sc : Nat)
    (data : Option ReqData) (textJson : Option Json) : NylasError :=
  let malformed : NylasError :=
    { kind := cls, url := some url, status_code := some sc, data := data,
      message := some (Json.str "Malformed"), server_error := none }
  match textJson with
  | none => malformed
  | some body =>
      match extractKey body "message", extractKey body "server_error" with
      | .ok m, .ok se =>
          { kind := cls, url := some url, status_code := some sc,
            data := data, message := m, server_error := se }
      | _, _ => malformed

/-- `_validate` (client.py lines 27-73): pass a 200 response through,
raise the mapped error class for a status in the table, and raise
`APIClientError` with message "Unknown status code." otherwise. -/
def _validate (resp : HResponse) : Except PyExc HResponse :=
  let url := resp.request.url
  let sc := resp.status_code
  let data := requestData resp.request
  if sc = 200 then .ok resp
  else
    match status_code_to_exc sc with
    | some cls => .error (.api (raisedError cls url sc data resp.textJson))
    | none =>
        .error (.api { kind := .UnknownStatus, url := some url,
                       status_code := some sc, data := data,
                       message := some (Json.str "Unknown status code."),
                       server_error := none })

/-- UTF-8 encoding of one character, as byte values. -/
def charUtf8 (c : Char) : List Nat :=
  let n := c.toNat
  if n < 0x80 then [n]
  else if n < 0x800 then [0xC0 + n / 0x40, 0x80 + n % 0x40]
  else if n < 0x10000 then
    [0xE0 + n / 0x1000, 0x80 + (n / 0x40) % 0x40, 0x80 + n % 0x40]
  else
    [0xF0 + n / 0x40000, 0x80 + (n / 0x1000) % 0x40,
     0x80 + (n / 0x40) % 0x40, 0x80 + n % 0x40]

/-- Python `s.encode('utf8')`, as a list of byte values. -/
def utf8Bytes (s : String) : List Nat :=
  (s.data.map charUtf8).flatten

/-- Character `n` of the standard base64 alphabet. -/
def b64Char (n : Nat) : Char :=
  "ABCDEFGHIJKLMNOPQRSTUVWXYZabcdefghijklmnopqrstuvwxyz0123456789+/".data.getD n '='

/-- Python `base64.b64encode`, decoded back to a string: three bytes at a
time become four alphabet characters, with `=` padding for a short final
group. -/
def b64encode : List Nat → String
  | [] => ""
  | [b1] =>
      String.mk [b64Char (b1 / 4), b64Char (b1 % 4 * 16), '=', '=']
  | [b1, b2] =>
      String.mk [b64Char (b1 / 4), b64Char (b1 % 4 * 16 + b2 / 16),
                 b64Char (b2 % 16 * 4), '=']
  | b1 :: b2 :: b3 :: rest =>
      String.mk [b64Char (b1 / 4), b64Char (b1 % 4 * 16 + b2 / 16),
                 b64Char (b2 % 16 * 4 + b3 / 64), b64Char (b3 % 64)]
        ++ b64encode rest

/-- A requests session is embedded as its header mapping: an association
list with at most one entry per header name. -/
abbrev Headers := List (String × String)

/-- Header lookup. -/
def getHeader (hs : Headers) (k : String) : Option String :=
  (hs.find? (fun p => p.1 = k)).map (fun p => p.2)

/-- Python `headers[k] = v`: overwrite an existing entry, else append. -/
def setHeader (hs : Headers) (k v : String) : Headers :=
  if hs.any (fun p => p.1 = k) then
    hs.map (fun p => if p.1 = k then (k, v) else p)
  else hs ++ [(k, v)]

/-- Python `del headers[k]` guarded by `k in headers`. -/
def delHeader (hs : Headers) (k : String) : Headers :=
  hs.filter (fun p => p.1 ≠ k)

/-- The non-Authorization headers installed on both sessions (client.py
lines 110-111 and 125-129).  The User-Agent value interpolates the SDK
and Python versions; its exact text is environment-dependent and never
inspected, so a fixed string stands for it. -/
def baseHeaders : Headers :=
  [("X-Nylas-API-Wrapper", "python"), ("User-Agent", "Nylas Python SDK")]

/-- The mutable state of an `APIClient` instance that the mediation layer
reads: credentials plus the two credential-bearing sessions, each
embedded as its headers. -/
structure APIClient where
  api_server : String
  app_id : Option String
  app_secret : Option String
  _access_token : Option String
  session_headers : Headers
  admin_session_headers : Headers
deriving DecidableEq

/-- The `access_token` property setter (client.py lines 136-144): store
the value, and install a `Bearer` Authorization header on the standard
session when the value is truthy, else delete any Authorization header.
An empty string is falsy in Python. -/
def set_access_token (c : APIClient) (value : Option String) : APIClient :=
  let c' := { c with _access_token := value }
  match value with
  | some v =>
      if v ≠ "" then
        { c' with session_headers :=
            setHeader c'.session_headers "Authorization" ("Bearer " ++ v) }
      else
        { c' with session_headers := delHeader c'.session_headers "Authorization" }
  | none =>
      { c' with session_headers := delHeader c'.session_headers "Authorization" }

/-- `APIClient.__init__` (client.py lines 89-130): reject a server
address without `://`, install the base headers on the standard session,
run the `access_token` setter, and give the admin session a basic-auth
Authorization header derived from `app_secret` when one is present (a
fresh `requests.Session` has no Authorization header, embedded as `[]`). -/
def APIClient.init (app_id app_secret access_token : Option String)
    (api_server : String) : Option APIClient :=
  if containsSub api_server "://" then
    let base : APIClient :=
      { api_server := api_server
        app_id := app_id
        app_secret := app_secret
        _access_token := none
        session_headers := baseHeaders
        admin_session_headers :=
          match app_secret with
          | some secret =>
              ("Authorization",
               "Basic " ++ b64encode (utf8Bytes (secret ++ ":"))) :: baseHeaders
          | none => [] }
    some (set_access_token base access_token)
  else none

/-- `_get_http_session` (client.py lines 234-240): requests to the `/a/`
namespace use the admin session, every other request the standard
session. -/
def _get_http_session (c : APIClient) (api_root : String) : Headers :=
  if api_root = "a" then c.admin_session_headers else c.session_headers

/-- The static class attributes of a restful model class that client.py
reads: `collection_name` and `api_root` (the resource classes themselves
live in `nylas/client/restful_models.py`, outside the embedded core). -/
structure ResourceCls where
  collection_name : String
  api_root : String
deriving DecidableEq

/-- A deserialized resource instance: the class it was built from plus
the JSON object fields it was built with. -/
structure Resource where
  resCls : String
  fields : List (String × Json)

/-- The fields of a JSON object (and `[]` on any other value; only
applied to objects in the theorems below). -/
def objFields : Json → List (String × Json)
  | .obj fs => fs
  | _ => []

/-- Modelled from the spec: `cls.create(self, **x)` of
`nylas/client/restful_models.py` is not under `src/`.  Per the spec, a
JSON object element is deserialized into the resource's structured form;
Python's `**x` on a non-mapping raises `TypeError`. -/
def RCreate (cls : ResourceCls) (j : Json) : Except PyExc Resource :=
  match j with
  | .obj fs => .ok { resCls := cls.collection_name, fields := fs }
  | _ => .error .typeError

/-- Python `response.json()`, i.e. `json.loads(response.text)`: the
parsed value, or an uncaught `ValueError` on unparseable text. -/
def HResponse.json (r : HResponse) : Except PyExc Json :=
  match r.textJson with
  | some j => .ok j
  | none => .error .valueError

/-- The `nylas_excepted` decorator (client.py lines 76-83): run the
wrapped operation on the transport outcome; a transport-level
`requests.exceptions.ConnectionError` (here `Except.error ()`) is
re-raised as the taxonomy's `ConnectionFailure` carrying only
`self.api_server`. -/
def nylas_excepted {α : Type} (c : APIClient) (f : HResponse → Except PyExc α)
    (t : Except Unit HResponse) : Except PyExc α :=
  match t with
  | .ok resp => f resp
  | .error _ => .error (.api { kind := .ConnectionFailure, url := some c.api_server })

/-- The list comprehension of `_get_resources` lines 264-268: deserialize
each element in order, skipping `None` elements. -/
def createAll (cls : ResourceCls) : List Json → Except PyExc (List Resource)
  | [] => .ok []
  | x :: xs =>
      match x with
      | .null => createAll cls xs
      | _ => do
          let r ← RCreate cls x
          let rest ← createAll cls xs
          .ok (r :: rest)

/-- The list comprehension of `_create_resources` line 339: deserialize
each element in order with no `None` filtering. -/
def createAllStrict (cls : ResourceCls) : List Json → Except PyExc (List Resource)
  | [] => .ok []
  | x :: xs => do
      let r ← RCreate cls x
      let rest ← createAllStrict cls xs
      .ok (r :: rest)

/-- Response handling of `_get_resources` (client.py lines 242-268),
parameterized by the transport outcome of the dispatched GET.  Iterating
a non-list `response.json()` value inside the comprehension raises
`TypeError` in Python; the model collapses those cases to `typeError`
(the theorems about this operation all fix an array body). -/
def _get_resources (c : APIClient) (cls : ResourceCls)
    (t : Except Unit HResponse) : Except PyExc (List Resource) :=
  nylas_excepted c (fun resp => do
    let r ← _validate resp
    let results ← r.json
    match results with
    | .arr xs => createAll cls xs
    | _ => .error .typeError) t

/-- `_get_resource_raw` (client.py lines 270-288): dispatch a GET and
validate the response. -/
def _get_resource_raw (c : APIClient) (cls : ResourceCls)
    (t : Except Unit HResponse) : Except PyExc HResponse :=
  nylas_excepted c (fun resp => _validate resp) t

/-- `_get_resource` (client.py lines 290-295): validated body, first
element when the body is a list (Python `result[0]`, an `IndexError` on
an empty list), then `cls.create`. -/
def _get_resource (c : APIClient) (cls : ResourceCls)
    (t : Except Unit HResponse) : Except PyExc Resource := do
  let response ← _get_resource_raw c cls t
  let result ← response.json
  match result with
  | .arr xs =>
      match xs with
      | [] => .error .indexError
      | x :: _ => RCreate cls x
  | _ => RCreate cls result

/-- The raw or wrapped result of `_create_resource`. -/
inductive CreateResult where
  | raw (j : Json) : CreateResult
  | wrapped (r : Resource) : CreateResult

/-- Response handling of `_create_resource` (client.py lines 303-323):
validate, parse, and return the parsed object unwrapped when the
collection is `send`, else wrap it via `cls.create`. -/
def _create_resource (c : APIClient) (cls : ResourceCls)
    (t : Except Unit HResponse) : Except PyExc CreateResult :=
  nylas_excepted c (fun resp => do
    let r ← _validate resp
    let result ← r.json
    if cls.collection_name = "send" then .ok (.raw result)
    else do
      let res ← RCreate cls result
      .ok (.wrapped res)) t

/-- Response handling of `_create_resources` (client.py lines 325-339). -/
def _create_resources (c : APIClient) (cls : ResourceCls)
    (t : Except Unit HResponse) : Except PyExc (List Resource) :=
  nylas_excepted c (fun resp => do
    let r ← _validate resp
    let results ← r.json
    match results with
    | .arr xs => createAllStrict cls xs
    | _ => .error .typeError) t

/-- Response handling of `_delete_resource` (client.py lines 341-352):
validate only; the response body is never deserialized and nothing is
returned. -/
def _delete_resource (c : APIClient) (cls : ResourceCls)
    (t : Except Unit HResponse) : Except PyExc Unit :=
  nylas_excepted c (fun resp => do
    let _ ← _validate resp
    .ok ()) t

/-- Response handling of `_update_resource` (client.py lines 354-367). -/
def _update_resource (c : APIClient) (cls : ResourceCls)
    (t : Except Unit HResponse) : Except PyExc Resource :=
  nylas_excepted c (fun resp => do
    let r ← _validate resp
    let result ← r.json
    RCreate cls result) t

/-- Response handling of `_call_resource_method` (client.py lines
369-390). -/
def _call_resource_method (c : APIClient) (cls : ResourceCls)
    (t : Except Unit HResponse) : Except PyExc Resource :=
  nylas_excepted c (fun resp => do
    let r ← _validate resp
    let result ← r.json
    RCreate cls result) t

/-- Python `"{}".format(x)` on an optional string: `None` renders as the
text `None`. -/
def fmtOpt : Option String → String
  | some s => s
  | none => "None"

/-- The `postfix = "/{}".format(extra) if extra else ''` idiom of
client.py lines 246 and 277; an empty string is falsy. -/
def extraPart (extra : Option String) : String :=
  match extra with
  | some e => if e ≠ "" then "/" ++ e else ""
  | none => ""

/-- A query parameter value: a string or an integer (the two value kinds
the tests exercise). -/
inductive QVal where
  | str (s : String) : QVal
  | nat (n : Nat) : QVal
deriving DecidableEq

/-- Hex digit character used by percent-encoding. -/
def hexChar (n : Nat) : Char :=
  "0123456789ABCDEF".data.getD n '0'

/-- Python `urllib.parse.quote_plus` on one character: alphanumerics and
`_.-~` pass through, a space becomes `+`, anything else is
percent-encoded byte by byte. -/
def quoteChar (c : Char) : String :=
  if c.isAlphanum || c = '_' || c = '.' || c = '-' || c = '~' then String.mk [c]
  else if c = ' ' then "+"
  else String.join ((charUtf8 c).map (fun b =>
    String.mk ['%', hexChar (b / 16), hexChar (b % 16)]))

/-- Python `urllib.parse.quote_plus` on a string. -/
def quote_plus (s : String) : String :=
  String.join (s.data.map quoteChar)

/-- One `k=v` pair of a query string, as `urllib.parse.urlencode` renders
it: both sides go through `quote_plus` after `str()`.  `str()` of an
integer is its decimal digits, which `quote_plus` leaves unchanged, so
the integer case is rendered directly. -/
def encodePair (p : String × QVal) : String :=
  match p.2 with
  | .str s => quote_plus p.1 ++ "=" ++ quote_plus s
  | .nat n => quote_plus p.1 ++ "=" ++ toString n

/-- Python `urllib.parse.urlencode`: `&`-separated `k=v` pairs in order. -/
def urlencode : List (String × QVal) → String
  | [] => ""
  | [p] => encodePair p
  | p :: ps => encodePair p ++ "&" ++ urlencode ps

/-- Modelled from the spec: `url_concat` of `nylas/client/util.py` is not
under `src/`.  Per the spec (section 4.1), query parameters are appended
to the URL via standard percent-encoding, and a value of `0` is encoded
as the literal `0` rather than omitted. -/
def url_concat (url : String) (args : List (String × QVal)) : String :=
  if args = [] then url else url ++ "?" ++ urlencode args

/-- URL construction of `_get_resources` (client.py lines 246-259),
before the query string is appended. -/
def getResourcesUrl (c : APIClient) (cls : ResourceCls)
    (extra : Option String) : String :=
  if cls.api_root ≠ "a" then
    c.api_server ++ "/" ++ cls.collection_name ++ extraPart extra
  else
    c.api_server ++ "/a/" ++ fmtOpt c.app_id ++ "/" ++ cls.collection_name
      ++ extraPart extra

/-- URL construction of `_get_resource_raw` (client.py lines 277-283),
before the query string is appended. -/
def getResourceRawUrl (c : APIClient) (cls : ResourceCls) (id : String)
    (extra : Option String) : String :=
  if cls.api_root ≠ "a" then
    c.api_server ++ "/" ++ cls.collection_name ++ "/" ++ id ++ extraPart extra
  else
    c.api_server ++ "/a/" ++ fmtOpt c.app_id ++ "/" ++ cls.collection_name
      ++ "/" ++ id ++ extraPart extra

/-- URL construction of `_create_resource` (client.py lines 305-308);
also the URL of `_create_resources` line 327, whose `kwargs` are empty. -/
def createResourceUrl (c : APIClient) (cls : ResourceCls)
    (kwargs : List (String × QVal)) : String :=
  let url := c.api_server ++ "/" ++ cls.collection_name ++ "/"
  if kwargs ≠ [] then url ++ "?" ++ urlencode kwargs else url

/-- URL construction of `_delete_resource` (client.py lines 343-347). -/
def deleteResourceUrl (c : APIClient) (cls : ResourceCls) (id : String)
    (kwargs : List (String × QVal)) : String :=
  let url := c.api_server ++ "/" ++ cls.collection_name ++ "/" ++ id
  if kwargs ≠ [] then url ++ "?" ++ urlencode kwargs else url

/-- URL construction of `_update_resource` (client.py lines 356-360). -/
def updateResourceUrl (c : APIClient) (cls : ResourceCls) (id : String)
    (kwargs : List (String × QVal)) : String :=
  let url := c.api_server ++ "/" ++ cls.collection_name ++ "/" ++ id
  if kwargs ≠ [] then url ++ "?" ++ urlencode kwargs else url

/-- URL construction of `_call_resource_method` (client.py lines
373-384). -/
def callResourceMethodUrl (c : APIClient) (cls : ResourceCls)
    (id method_name : String) : String :=
  if cls.api_root ≠ "a" then
    c.api_server ++ "/" ++ cls.collection_name ++ "/" ++ id ++ "/" ++ method_name
  else
    c.api_server ++ "/a/" ++ fmtOpt c.app_id ++ "/" ++ cls.collection_name
      ++ "/" ++ id ++ "/" ++ method_name

/-- Modelled from the spec: the fixed page size of the lazy paginated
collection (`nylas/client/restful_model_collection.py` is not under
`src/`).  The spec's design note fixes the documented default of 50,
matching the page sizes exercised by `tests/test_filter.py`. -/
def CHUNK_SIZE : Nat := 50

/-- Modelled from the spec: draining a paginated collection with `all()`
(`restful_model_collection.py` is not under `src/`).  The argument lists
the successive pages the server serves; per the spec (section 4.5), each
page's items are produced and the traversal stops once a page returns
fewer than `CHUNK_SIZE` items. -/
def allPages {α : Type} : List (List α) → List α
  | [] => []
  | p :: ps => if p.length < CHUNK_SIZE then p else p ++ allPages ps

/-- Modelled from the spec: the filters of the first page request issued
by a collection traversal (`restful_model_collection.py` is not under
`src/`).  Per the spec (section 4.5), `offset` is appended to the
caller-supplied filter set, the caller's own `offset` key taking
precedence and being used verbatim; only the offset handling is needed
here. -/
def firstPageFilters (filters : List (String × QVal)) : List (String × QVal) :=
  if filters.any (fun p => p.1 = "offset") then filters
  else filters ++ [("offset", QVal.nat 0)]

/-- The URL of the first request of a collection traversal: the standard
collection URL with the first page's filters appended. -/
def firstRequestUrl (base coll : String)
    (filters : List (String × QVal)) : String :=
  url_concat (base ++ "/" ++ coll) (firstPageFilters filters)

/-- A concrete request, for the closed instances below. -/
def reqW : HRequest := { url := "https://api.nylas.com/events" }

/-- A concrete response with the given status code and parse outcome. -/
def respW (sc : Nat) (tj : Option Json) : HResponse :=
  { request := reqW, status_code := sc, textJson := tj }

/-- The descriptor of a standard-namespace resource (`Event`). -/
def eventsCls : ResourceCls := { collection_name := "events", api_root := "n" }

/-- The descriptor of the send-message collection (`Send`). -/
def sendCls : ResourceCls := { collection_name := "send", api_root := "n" }

/-- The descriptor of an admin-namespace resource (`Account`, whose
`api_root` is `a`). -/
def adminAccounts : ResourceCls := { collection_name := "accounts", api_root := "a" }

/-- A concrete client state, for the closed instances below. -/
def demoClient : APIClient :=
  { api_server := "https://api.nylas.com", app_id := some "app-123",
    app_secret := none, _access_token := none,
    session_headers := baseHeaders, admin_session_headers := [] }

/-- The concrete client produced by `APIClient.init` with an app id, an
app secret and an access token. -/
def clientW : APIClient :=
  (APIClient.init (some "app-123") (some "sec") (some "tok")
    "https://api.nylas.com").getD demoClient

/-! ### Helper lemmas -/

theorem raisedError_kind (cls : ErrorKind) (url : String) (sc : Nat)
    (data : Option ReqData) (tj : Option Json) :
    (raisedError cls url sc data tj).kind = cls := by
  unfold raisedError
  cases tj with
  | none => rfl
  | some body =>
      cases hm : extractKey body "message" with
      | error e => simp [hm]
      | ok m =>
          cases hse : extractKey body "server_error" with
          | error e => simp [hm, hse]
          | ok se => simp [hm, hse]

theorem validate_ok (resp : HResponse) (h : resp.status_code = 200) :
    _validate resp = .ok resp := by
  simp [_validate, h]

theorem validate_mapped (resp : HResponse) (k : ErrorKind)
    (h : status_code_to_exc resp.status_code = some k) :
    _validate resp = .error (.api (raisedError k resp.request.url
      resp.status_code (requestData resp.request) resp.textJson)) := by
  have h200 : ¬ resp.status_code = 200 := by
    intro e
    rw [e] at h
    simp [status_code_to_exc] at h
  simp [_validate, h200, h]

theorem validate_unknown (resp : HResponse) (h200 : ¬ resp.status_code = 200)
    (h : status_code_to_exc resp.status_code = none) :
    _validate resp =
      .error (.api
        { kind := .UnknownStatus,
          url := some resp.request.url,
          status_code := some resp.status_code,
          data := requestData resp.request,
          message := some (Json.str "Unknown status code."),
          server_error := none }) := by
  simp [_validate, h200, h]

theorem get_resources_arr (c : APIClient) (cls : ResourceCls) (resp : HResponse)
    (xs : List Json) (h200 : resp.status_code = 200)
    (hb : resp.textJson = some (Json.arr xs)) :
    _get_resources c cls (.ok resp) = createAll cls xs := by
  simp [_get_resources, nylas_excepted, validate_ok resp h200, HResponse.json,
    hb, Bind.bind, Except.bind]

theorem createAll_objs (cls : ResourceCls) :
    ∀ xs : List Json, (∀ x ∈ xs, x ≠ Json.null → ∃ fs, x = Json.obj fs) →
      createAll cls xs =
        .ok ((xs.filter (fun x => !x.isNull)).map
          (fun x => { resCls := cls.collection_name, fields := objFields x }))
  | [], _ => rfl
  | x :: xs, h => by
      have hx := h x (List.mem_cons_self x xs)
      have ih := createAll_objs cls xs (fun y hy => h y (List.mem_cons_of_mem x hy))
      cases x with
      | null => simpa [createAll, Json.isNull] using ih
      | obj fs =>
          simp [createAll, RCreate, ih, Json.isNull, objFields, Bind.bind, Except.bind]
      | bool b => exact absurd (hx (fun hh => Json.noConfusion hh)) (by rintro ⟨fs, hfs⟩; exact Json.noConfusion hfs)
      | num n => exact absurd (hx (fun hh => Json.noConfusion hh)) (by rintro ⟨fs, hfs⟩; exact Json.noConfusion hfs)
      | str s => exact absurd (hx (fun hh => Json.noConfusion hh)) (by rintro ⟨fs, hfs⟩; exact Json.noConfusion hfs)
      | arr ys => exact absurd (hx (fun hh => Json.noConfusion hh)) (by rintro ⟨fs, hfs⟩; exact Json.noConfusion hfs)

theorem getHeader_overwrite (k v : String) :
    ∀ hs : Headers, hs.any (fun p => p.1 = k) = true →
      getHeader (hs.map (fun p => if p.1 = k then (k, v) else p)) k = some v
  | [], h => by simp at h
  | q :: qs, h => by
      by_cases hq : q.1 = k
      · simp [getHeader, hq]
      · have h' : qs.any (fun p => p.1 = k) = true := by
          simp [List.any_cons, hq] at h
          simpa using h
        have ih := getHeader_overwrite k v qs h'
        simpa [getHeader, hq] using ih

theorem getHeader_append_new (k v : String) :
    ∀ hs : Headers, hs.any (fun p => p.1 = k) = false →
      getHeader (hs ++ [(k, v)]) k = some v
  | [], _ => by simp [getHeader]
  | q :: qs, h => by
      by_cases hq : q.1 = k
      · exfalso
        have : (q :: qs).any (fun p => p.1 = k) = true := by
          simp [List.any_cons, hq]
        rw [this] at h
        exact Bool.noConfusion h
      · have h' : qs.any (fun p => p.1 = k) = false := by
          simp [List.any_cons, hq] at h
          simpa using h
        have ih := getHeader_append_new k v qs h'
        simpa [getHeader, hq] using ih

theorem getHeader_setHeader (hs : Headers) (k v : String) :
    getHeader (setHeader hs k v) k = some v := by
  unfold setHeader
  by_cases h : hs.any (fun p => p.1 = k)
  · rw [if_pos h]
    exact getHeader_overwrite k v hs h
  · rw [if_neg h]
    exact getHeader_append_new k v hs (Bool.eq_false_iff.mpr h)

theorem getHeader_delHeader (hs : Headers) (k : String) :
    getHeader (delHeader hs k) k = none := by
  induction hs with
  | nil => rfl
  | cons q qs ih =>
      by_cases hq : q.1 = k
      · simpa [delHeader, hq] using ih
      · simpa [delHeader, getHeader, hq] using ih

theorem set_access_token_admin (c : APIClient) (v : Option String) :
    (set_access_token c v).admin_session_headers = c.admin_session_headers := by
  cases v with
  | none => rfl
  | some s =>
      by_cases h : s = "" <;> simp [set_access_token, h]

theorem set_access_token_bearer (c : APIClient) (t : String) (ht : ¬ t = "") :
    (set_access_token c (some t)).session_headers =
      setHeader c.session_headers "Authorization" ("Bearer " ++ t) := by
  simp [set_access_token, ht]

theorem set_access_token_unset (c : APIClient) :
    (set_access_token c none).session_headers =
      delHeader c.session_headers "Authorization" := rfl

theorem urlencode_mem (k : String) (v : QVal) :
    ∀ l1 l2 : List (String × QVal),
      ∃ s1 s2, urlencode (l1 ++ (k, v) :: l2) = s1 ++ encodePair (k, v) ++ s2
  | [], [] => ⟨"", "", by simp [urlencode]⟩
  | [], p :: ps =>
      ⟨"", "&" ++ urlencode (p :: ps), by
        simp only [List.nil_append, urlencode, String.empty_append]
        rw [String.append_assoc]⟩
  | q :: l1, l2 => by
      obtain ⟨s1, s2, hs⟩ := urlencode_mem k v l1 l2
      refine ⟨encodePair q ++ "&" ++ s1, s2, ?_⟩
      have hne : l1 ++ (k, v) :: l2 ≠ [] := by simp
      have hcons : urlencode (q :: (l1 ++ (k, v) :: l2)) =
          encodePair q ++ "&" ++ urlencode (l1 ++ (k, v) :: l2) := by
        cases hl : l1 ++ (k, v) :: l2 with
        | nil => exact absurd hl hne
        | cons r rs => simp [urlencode]
      rw [List.cons_append, hcons, hs]
      simp [String.append_assoc]

theorem encodePair_offset_nat (n : Nat) :
    encodePair ("offset", QVal.nat n) = "offset=" ++ toString n := by
  show quote_plus "offset" ++ "=" ++ toString n = "offset=" ++ toString n
  have h : quote_plus "offset" ++ "=" = "offset=" := by decide
  rw [h]

theorem firstPageFilters_absent (fs : List (String × QVal))
    (h : fs.all (fun p => ¬ p.1 = "offset") = true) :
    firstPageFilters fs = fs ++ [("offset", QVal.nat 0)] := by
  have hany : fs.any (fun p => p.1 = "offset") = false := by
    rw [List.any_eq_false]
    intro x hx
    have := List.all_eq_true.mp h x hx
    simpa using this
  simp [firstPageFilters, hany]

theorem firstPageFilters_present (l1 l2 : List (String × QVal)) (v : QVal) :
    firstPageFilters (l1 ++ ("offset", v) :: l2) = l1 ++ ("offset", v) :: l2 := by
  have hany : (l1 ++ ("offset", v) :: l2).any (fun p => p.1 = "offset") = true := by
    rw [List.any_eq_true]
    exact ⟨("offset", v), by simp, by simp⟩
  simp [firstPageFilters, hany]

theorem url_concat_ne (url : String) (args : List (String × QVal))
    (h : args ≠ []) : url_concat url args = url ++ "?" ++ urlencode args := by
  simp [url_concat, h]

theorem firstRequestUrl_mem (base coll : String) (fs : List (String × QVal))
    (l1 l2 : List (String × QVal)) (k : String) (v : QVal)
    (h : firstPageFilters fs = l1 ++ (k, v) :: l2) :
    ∃ s1 s2, firstRequestUrl base coll fs = s1 ++ encodePair (k, v) ++ s2 := by
  obtain ⟨s1, s2, hs⟩ := urlencode_mem k v l1 l2
  have hne : firstPageFilters fs ≠ [] := by
    rw [h]
    simp
  refine ⟨base ++ "/" ++ coll ++ "?" ++ s1, s2, ?_⟩
  rw [firstRequestUrl, url_concat_ne _ _ hne, h, hs]
  simp [String.append_assoc]

/-! ### Claim theorems -/

/-- C3: draining a paginated collection with `all()` produces items
until, and only until, the first page whose length is strictly below the
fixed page size; in the concrete two-page scenario of sizes 50 then 22,
`all()` returns exactly 72 items. -/
theorem pagination_all_drains :
    (∀ (α : Type) (pre : List (List α)) (shortPage : List α)
        (post : List (List α)),
        (∀ p ∈ pre, ¬ p.length < CHUNK_SIZE) →
        shortPage.length < CHUNK_SIZE →
        allPages (pre ++ shortPage :: post) = pre.flatten ++ shortPage) ∧
    (allPages [List.replicate 50 (Json.str "m"),
               List.replicate 22 (Json.str "m")]).length = 72 := by
  constructor
  · intro α pre shortPage post hpre hshort
    induction pre with
    | nil =>
        simp only [List.nil_append, List.flatten_nil, allPages]
        rw [if_pos hshort]
    | cons p ps ih =>
        have hp : ¬ p.length < CHUNK_SIZE := hpre p (List.mem_cons_self p ps)
        have ih' := ih (fun q hq => hpre q (List.mem_cons_of_mem p hq))
        simp [allPages, hp, ih', List.append_assoc]
  · decide

/-- Closed instance of C3: served pages of sizes 50, 22 and then one
more page produce the first two pages only (the page of size 22 is the
exhaustion signal), totalling 72 items. -/
theorem pagination_all_drains_witness :
    allPages [List.replicate 50 (Json.str "m"),
              List.replicate 22 (Json.str "m"), [Json.str "x"]] =
      [List.replicate 50 (Json.str "m")].flatten ++
        List.replicate 22 (Json.str "m") :=
  pagination_all_drains.1 Json [List.replicate 50 (Json.str "m")]
    (List.replicate 22 (Json.str "m")) [[Json.str "x"]]
    (by
      intro p hp
      rw [List.mem_singleton] at hp
      subst hp
      decide)
    (by decide)

/-- C6: the first request of a collection traversal carries `offset=0`
in its query string when the caller supplies no offset filter; an
explicitly supplied offset of 0 still appears as `offset=0`; and a
positive offset N appears verbatim as `offset=N`. -/
theorem offset_query_param :
    (∀ (base coll : String) (fs : List (String × QVal)),
        fs.all (fun p => ¬ p.1 = "offset") = true →
        ∃ s1 s2, firstRequestUrl base coll fs = s1 ++ "offset=0" ++ s2) ∧
    (∀ (base coll : String) (l1 l2 : List (String × QVal)),
        ∃ s1 s2, firstRequestUrl base coll
          (l1 ++ ("offset", QVal.nat 0) :: l2) = s1 ++ "offset=0" ++ s2) ∧
    (∀ (base coll : String) (l1 l2 : List (String × QVal)) (n : Nat),
        0 < n →
        ∃ s1 s2, firstRequestUrl base coll
          (l1 ++ ("offset", QVal.nat n) :: l2) =
            s1 ++ ("offset=" ++ toString n) ++ s2) := by
  refine ⟨?_, ?_, ?_⟩
  · intro base coll fs h
    have h0 : encodePair ("offset", QVal.nat 0) = "offset=0" := by decide
    obtain ⟨s1, s2, hs⟩ := firstRequestUrl_mem base coll fs fs []
      "offset" (QVal.nat 0) (firstPageFilters_absent fs h)
    exact ⟨s1, s2, by rwa [h0] at hs⟩
  · intro base coll l1 l2
    have h0 : encodePair ("offset", QVal.nat 0) = "offset=0" := by decide
    obtain ⟨s1, s2, hs⟩ := firstRequestUrl_mem base coll _ l1 l2
      "offset" (QVal.nat 0) (firstPageFilters_present l1 l2 (QVal.nat 0))
    exact ⟨s1, s2, by rwa [h0] at hs⟩
  · intro base coll l1 l2 n hn
    obtain ⟨s1, s2, hs⟩ := firstRequestUrl_mem base coll _ l1 l2
      "offset" (QVal.nat n) (firstPageFilters_present l1 l2 (QVal.nat n))
    exact ⟨s1, s2, by rwa [encodePair_offset_nat n] at hs⟩

/-- Closed instance of C6 at the filter sets of the offset tests:
`in=Nylas` alone, `in=Nylas` with explicit offset 0, and `in=Nylas` with
explicit offset 5. -/
theorem offset_query_param_witness :
    (∃ s1 s2, firstRequestUrl "https://api.nylas.com" "events"
        [("in", QVal.str "Nylas")] = s1 ++ "offset=0" ++ s2) ∧
    (∃ s1 s2, firstRequestUrl "https://api.nylas.com" "events"
        ([("in", QVal.str "Nylas")] ++ ("offset", QVal.nat 0) :: []) =
        s1 ++ "offset=0" ++ s2) ∧
    (∃ s1 s2, firstRequestUrl "https://api.nylas.com" "events"
        ([("in", QVal.str "Nylas")] ++ ("offset", QVal.nat 5) :: []) =
        s1 ++ ("offset=" ++ toString 5) ++ s2) :=
  ⟨offset_query_param.1 "https://api.nylas.com" "events"
      [("in", QVal.str "Nylas")] (by decide),
   offset_query_param.2.1 "https://api.nylas.com" "events"
      [("in", QVal.str "Nylas")] [],
   offset_query_param.2.2 "https://api.nylas.com" "events"
      [("in", QVal.str "Nylas")] [] 5 (by decide)⟩

/-- C1: for every HTTP response with a status code in the mapping table
(400 InvalidRequest, 401 NotAuthorized, 402 MessageRejected, 403
NotAuthorized, 404 NotFound, 405 MethodNotSupported, 409 Conflict, 429
SendingQuotaExceeded, 500 Server, 503 ServiceUnavailable, 504
ServerTimeout), validation raises exactly the mapped error kind; every
non-200 status outside the table raises the generic UnknownStatus error;
a 200 passes through; and a delete operation on a 404 raises NotFound
and performs no deserialization (the theorem holds for every body,
parseable or not, and a delete on 200 returns unit without touching the
body). -/
theorem validate_status_table :
    (∀ resp : HResponse, resp.status_code = 200 → _validate resp = .ok resp) ∧
    (∀ (resp : HResponse) (k : ErrorKind),
        status_code_to_exc resp.status_code = some k →
        ∃ e, _validate resp = .error (.api e) ∧ e.kind = k) ∧
    (∀ resp : HResponse, ¬ resp.status_code = 200 →
        status_code_to_exc resp.status_code = none →
        ∃ e, _validate resp = .error (.api e) ∧ e.kind = .UnknownStatus) ∧
    (∀ (c : APIClient) (cls : ResourceCls) (resp : HResponse),
        resp.status_code = 404 →
        ∃ e, _delete_resource c cls (.ok resp) = .error (.api e) ∧
          e.kind = .NotFound) ∧
    (∀ (c : APIClient) (cls : ResourceCls) (resp : HResponse),
        resp.status_code = 200 → _delete_resource c cls (.ok resp) = .ok ()) ∧
    status_code_to_exc 400 = some .InvalidRequest ∧
    status_code_to_exc 401 = some .NotAuthorized ∧
    status_code_to_exc 402 = some .MessageRejected ∧
    status_code_to_exc 403 = some .NotAuthorized ∧
    status_code_to_exc 404 = some .NotFound ∧
    status_code_to_exc 405 = some .MethodNotSupported ∧
    status_code_to_exc 409 = some .Conflict ∧
    status_code_to_exc 429 = some .SendingQuotaExceeded ∧
    status_code_to_exc 500 = some .Server ∧
    status_code_to_exc 503 = some .ServiceUnavailable ∧
    status_code_to_exc 504 = some .ServerTimeout ∧
    status_code_to_exc 200 = none := by
  refine ⟨?_, ?_, ?_, ?_, ?_, ?_, ?_, ?_, ?_, ?_, ?_, ?_, ?_, ?_, ?_, ?_, ?_⟩
  · exact fun resp h => validate_ok resp h
  · intro resp k hk
    exact ⟨raisedError k resp.request.url resp.status_code
      (requestData resp.request) resp.textJson,
      validate_mapped resp k hk,
      raisedError_kind k resp.request.url resp.status_code
        (requestData resp.request) resp.textJson⟩
  · intro resp h200 hk
    refine ⟨_, validate_unknown resp h200 hk, rfl⟩
  · intro c cls resp h404
    have hk : status_code_to_exc resp.status_code = some .NotFound := by
      rw [h404]
      decide
    refine ⟨raisedError .NotFound resp.request.url resp.status_code
      (requestData resp.request) resp.textJson, ?_,
      raisedError_kind .NotFound resp.request.url resp.status_code
        (requestData resp.request) resp.textJson⟩
    simp [_delete_resource, nylas_excepted, validate_mapped resp _ hk,
      Bind.bind, Except.bind]
  · intro c cls resp h200
    simp [_delete_resource, nylas_excepted, validate_ok resp h200,
      Bind.bind, Except.bind]
  all_goals rfl

/-- Closed instance of C1: the parts of `validate_status_table` that
carry hypotheses, applied at concrete 503, 404, 200 and 418 responses
with unparseable bodies. -/
theorem validate_status_table_witness :
    (∃ e, _validate (respW 503 none) = .error (.api e) ∧
        e.kind = ErrorKind.ServiceUnavailable) ∧
    (∃ e, _validate (respW 418 none) = .error (.api e) ∧
        e.kind = ErrorKind.UnknownStatus) ∧
    (∃ e, _delete_resource demoClient eventsCls (.ok (respW 404 none)) =
        .error (.api e) ∧ e.kind = ErrorKind.NotFound) ∧
    _delete_resource demoClient eventsCls (.ok (respW 200 none)) = .ok () ∧
    _validate (respW 200 none) = .ok (respW 200 none) :=
  ⟨validate_status_table.2.1 (respW 503 none) .ServiceUnavailable (by decide),
   validate_status_table.2.2.1 (respW 418 none) (by decide) (by decide),
   validate_status_table.2.2.2.1 demoClient eventsCls (respW 404 none) rfl,
   validate_status_table.2.2.2.2.1 demoClient eventsCls (respW 200 none) rfl,
   validate_status_table.1 (respW 200 none) rfl⟩

/-- C4: for every response whose status is in the error mapping table
and whose body is not parseable as JSON, validation raises the error
kind mapped from the status code with the generic message "Malformed";
the parse failure never changes which kind is raised. -/
theorem malformed_body_preserves_kind :
    ∀ (resp : HResponse) (k : ErrorKind),
      status_code_to_exc resp.status_code = some k →
      resp.textJson = none →
      ∃ e, _validate resp = .error (.api e) ∧ e.kind = k ∧
        e.message = some (Json.str "Malformed") := by
  intro resp k hk ht
  refine ⟨raisedError k resp.request.url resp.status_code
    (requestData resp.request) resp.textJson,
    validate_mapped resp k hk,
    raisedError_kind k resp.request.url resp.status_code
      (requestData resp.request) resp.textJson, ?_⟩
  rw [ht]
  rfl

/-- Closed instance of C4 at a 402 response with an unparseable body. -/
theorem malformed_body_preserves_kind_witness :
    ∃ e, _validate (respW 402 none) = .error (.api e) ∧
      e.kind = ErrorKind.MessageRejected ∧
      e.message = some (Json.str "Malformed") :=
  malformed_body_preserves_kind (respW 402 none) .MessageRejected (by decide) rfl

/-- C7: for every operation, a transport-level connection failure is
caught by the single `nylas_excepted` wrapper and re-raised as the
ConnectionFailure kind, and the raised error carries only the target API
server URL (all other context fields are absent). -/
theorem connection_failure_uniform :
    ∀ (c : APIClient) (cls : ResourceCls),
      _get_resources c cls (.error ()) =
        .error (.api { kind := .ConnectionFailure, url := some c.api_server }) ∧
      _get_resource_raw c cls (.error ()) =
        .error (.api { kind := .ConnectionFailure, url := some c.api_server }) ∧
      _get_resource c cls (.error ()) =
        .error (.api { kind := .ConnectionFailure, url := some c.api_server }) ∧
      _create_resource c cls (.error ()) =
        .error (.api { kind := .ConnectionFailure, url := some c.api_server }) ∧
      _create_resources c cls (.error ()) =
        .error (.api { kind := .ConnectionFailure, url := some c.api_server }) ∧
      _delete_resource c cls (.error ()) =
        .error (.api { kind := .ConnectionFailure, url := some c.api_server }) ∧
      _update_resource c cls (.error ()) =
        .error (.api { kind := .ConnectionFailure, url := some c.api_server }) ∧
      _call_resource_method c cls (.error ()) =
        .error (.api { kind := .ConnectionFailure, url := some c.api_server }) ∧
      ({ kind := .ConnectionFailure, url := some c.api_server } : NylasError).status_code = none ∧
      ({ kind := .ConnectionFailure, url := some c.api_server } : NylasError).data = none ∧
      ({ kind := .ConnectionFailure, url := some c.api_server } : NylasError).message = none ∧
      ({ kind := .ConnectionFailure, url := some c.api_server } : NylasError).server_error = none :=
  fun c cls =>
    ⟨rfl, rfl, rfl, rfl, rfl, rfl, rfl, rfl, rfl, rfl, rfl, rfl⟩

/-- C8: for every list operation whose 200 response body is a JSON
array, the result contains exactly one deserialized resource per
non-null array element, in order, and every null element is silently
skipped. -/
theorem list_skips_null_elements :
    ∀ (c : APIClient) (cls : ResourceCls) (resp : HResponse) (xs : List Json),
      resp.status_code = 200 → resp.textJson = some (Json.arr xs) →
      (∀ x ∈ xs, x ≠ Json.null → ∃ fs, x = Json.obj fs) →
      _get_resources c cls (.ok resp) =
        .ok ((xs.filter (fun x => !x.isNull)).map
          (fun x => { resCls := cls.collection_name, fields := objFields x })) := by
  intro c cls resp xs h200 hb hobj
  rw [get_resources_arr c cls resp xs h200 hb]
  exact createAll_objs cls xs hobj

/-- Closed instance of C8: a three-element array with a null in the
middle yields the two non-null elements, in order. -/
theorem list_skips_null_elements_witness :
    _get_resources demoClient eventsCls
      (.ok (respW 200 (some (Json.arr
        [Json.obj [("id", Json.str "a")], Json.null,
         Json.obj [("id", Json.str "b")]])))) =
      .ok [{ resCls := "events", fields := [("id", Json.str "a")] },
           { resCls := "events", fields := [("id", Json.str "b")] }] := by
  have h := list_skips_null_elements demoClient eventsCls
    (respW 200 (some (Json.arr
      [Json.obj [("id", Json.str "a")], Json.null,
       Json.obj [("id", Json.str "b")]])))
    [Json.obj [("id", Json.str "a")], Json.null, Json.obj [("id", Json.str "b")]]
    rfl rfl ?_
  · simpa using h
  · intro x hx hnx
    simp only [List.mem_cons, List.not_mem_nil, or_false] at hx
    rcases hx with hx | hx | hx
    · exact ⟨[("id", Json.str "a")], hx⟩
    · exact absurd hx hnx
    · exact ⟨[("id", Json.str "b")], hx⟩

/-- C9: for every create operation, a collection named `send` returns
the parsed response object raw, without resource wrapping; any other
collection wraps the parsed object into one resource instance. -/
theorem send_collection_raw_result :
    ∀ (c : APIClient) (cls : ResourceCls) (resp : HResponse) (j : Json),
      resp.status_code = 200 → resp.textJson = some j →
      (cls.collection_name = "send" →
        _create_resource c cls (.ok resp) = .ok (.raw j)) ∧
      (¬ cls.collection_name = "send" → ∀ fs, j = Json.obj fs →
        _create_resource c cls (.ok resp) =
          .ok (.wrapped { resCls := cls.collection_name, fields := fs })) := by
  intro c cls resp j h200 hb
  constructor
  · intro hsend
    simp [_create_resource, nylas_excepted, validate_ok resp h200,
      HResponse.json, hb, hsend, Bind.bind, Except.bind]
  · intro hsend fs hfs
    simp [_create_resource, nylas_excepted, validate_ok resp h200,
      HResponse.json, hb, hsend, hfs, RCreate, Bind.bind, Except.bind]

/-- Closed instance of C9: the `send` collection returns the parsed
object raw; the `events` collection wraps the same object. -/
theorem send_collection_raw_result_witness :
    _create_resource demoClient sendCls
      (.ok (respW 200 (some (Json.obj [("id", Json.str "m")])))) =
      .ok (.raw (Json.obj [("id", Json.str "m")])) ∧
    _create_resource demoClient eventsCls
      (.ok (respW 200 (some (Json.obj [("id", Json.str "m")])))) =
      .ok (.wrapped { resCls := "events", fields := [("id", Json.str "m")] }) :=
  ⟨(send_collection_raw_result demoClient sendCls
      (respW 200 (some (Json.obj [("id", Json.str "m")])))
      (Json.obj [("id", Json.str "m")]) rfl rfl).1 rfl,
   (send_collection_raw_result demoClient eventsCls
      (respW 200 (some (Json.obj [("id", Json.str "m")])))
      (Json.obj [("id", Json.str "m")]) rfl rfl).2
      (by decide) [("id", Json.str "m")] rfl⟩

/-- C5: the signing context is selected by the resource's namespace:
admin-namespace requests use the admin session, whose Authorization
header is `Basic` plus the base64 of `appSecret + ":"`; standard
namespace requests use the standard session, whose Authorization header
is `Bearer` plus the current access token, or absent when the token is
unset; and after any token rotation the next standard-namespace request
uses the new value, never a value cached at construction. -/
theorem session_credential_selection :
    (∀ (c : APIClient) (root : String), root = "a" →
        _get_http_session c root = c.admin_session_headers) ∧
    (∀ (c : APIClient) (root : String), ¬ root = "a" →
        _get_http_session c root = c.session_headers) ∧
    (∀ (aid tok : Option String) (secret server : String) (c : APIClient),
        APIClient.init aid (some secret) tok server = some c →
        getHeader (_get_http_session c "a") "Authorization" =
          some ("Basic " ++ b64encode (utf8Bytes (secret ++ ":")))) ∧
    (∀ (c : APIClient) (root t : String), ¬ root = "a" → ¬ t = "" →
        getHeader (_get_http_session (set_access_token c (some t)) root)
          "Authorization" = some ("Bearer " ++ t)) ∧
    (∀ (c : APIClient) (root : String), ¬ root = "a" →
        getHeader (_get_http_session (set_access_token c none) root)
          "Authorization" = none) ∧
    (∀ (c : APIClient) (root : String) (t1 : Option String) (t2 : String),
        ¬ root = "a" → ¬ t2 = "" →
        getHeader (_get_http_session
          (set_access_token (set_access_token c t1) (some t2)) root)
          "Authorization" = some ("Bearer " ++ t2)) := by
  refine ⟨?_, ?_, ?_, ?_, ?_, ?_⟩
  · intro c root h
    simp [_get_http_session, h]
  · intro c root h
    simp [_get_http_session, h]
  · intro aid tok secret server c h
    rw [APIClient.init] at h
    split at h
    · injection h with h'
      subst h'
      simp [_get_http_session, set_access_token_admin, getHeader]
    · exact Option.noConfusion h
  · intro c root t hroot ht
    simp [_get_http_session, hroot, set_access_token_bearer c t ht,
      getHeader_setHeader]
  · intro c root hroot
    simp [_get_http_session, hroot, set_access_token_unset, getHeader_delHeader]
  · intro c root t1 t2 hroot ht
    simp [_get_http_session, hroot,
      set_access_token_bearer (set_access_token c t1) t2 ht, getHeader_setHeader]

/-- Closed instance of C5: the admin session of a client built with app
secret `sec` carries the basic-auth header; setting, clearing and
rotating the access token is reflected in the standard session's
Authorization header. -/
theorem session_credential_selection_witness :
    getHeader (_get_http_session clientW "a") "Authorization" =
      some ("Basic " ++ b64encode (utf8Bytes ("sec" ++ ":"))) ∧
    getHeader (_get_http_session (set_access_token demoClient (some "tok2")) "n")
      "Authorization" = some ("Bearer " ++ "tok2") ∧
    getHeader (_get_http_session (set_access_token demoClient none) "n")
      "Authorization" = none ∧
    getHeader (_get_http_session
      (set_access_token (set_access_token demoClient (some "t1")) (some "t2")) "n")
      "Authorization" = some ("Bearer " ++ "t2") :=
  ⟨session_credential_selection.2.2.1 (some "app-123") (some "tok") "sec"
      "https://api.nylas.com" clientW (by decide),
   session_credential_selection.2.2.2.1 demoClient "n" "tok2"
      (by decide) (by decide),
   session_credential_selection.2.2.2.2.1 demoClient "n" (by decide),
   session_credential_selection.2.2.2.2.2 demoClient "n" (some "t1") "t2"
      (by decide) (by decide)⟩

set_option maxRecDepth 8192 in
/-- C2, counterexample: for an admin-namespace resource
(`api_root = "a"`, collection `accounts`) on a client whose app id is
`app-123`, the create, update and delete URLs lack the `/a/app-123`
prefix the claim requires — the segment `/a/` does not occur in them at
all — while the list URL does carry the prefix. -/
theorem admin_create_url_counterexample :
    createResourceUrl demoClient adminAccounts [] =
      "https://api.nylas.com/accounts/" ∧
    ¬ createResourceUrl demoClient adminAccounts [] =
      "https://api.nylas.com/a/app-123/accounts/" ∧
    occursIn "/a/".data (createResourceUrl demoClient adminAccounts []).data
      = false ∧
    updateResourceUrl demoClient adminAccounts "id-1" [] =
      "https://api.nylas.com/accounts/id-1" ∧
    occursIn "/a/".data
      (updateResourceUrl demoClient adminAccounts "id-1" []).data = false ∧
    deleteResourceUrl demoClient adminAccounts "id-1" [] =
      "https://api.nylas.com/accounts/id-1" ∧
    getResourcesUrl demoClient adminAccounts none =
      "https://api.nylas.com/a/app-123/accounts" := by
  refine ⟨?_, ?_, ?_, ?_, ?_, ?_, ?_⟩ <;> decide

/-- C2, amended: list, get-one and sub-action URLs for admin-namespace
resources carry the `/a/{appId}` prefix, but create, createMany, update
and delete always build the standard-namespace URL, ignoring the
resource's namespace. -/
theorem admin_namespace_urls_amended :
    (∀ (c : APIClient) (cls : ResourceCls) (extra : Option String),
        cls.api_root = "a" →
        getResourcesUrl c cls extra =
          c.api_server ++ "/a/" ++ fmtOpt c.app_id ++ "/" ++
            cls.collection_name ++ extraPart extra) ∧
    (∀ (c : APIClient) (cls : ResourceCls) (id : String) (extra : Option String),
        cls.api_root = "a" →
        getResourceRawUrl c cls id extra =
          c.api_server ++ "/a/" ++ fmtOpt c.app_id ++ "/" ++
            cls.collection_name ++ "/" ++ id ++ extraPart extra) ∧
    (∀ (c : APIClient) (cls : ResourceCls) (id m : String),
        cls.api_root = "a" →
        callResourceMethodUrl c cls id m =
          c.api_server ++ "/a/" ++ fmtOpt c.app_id ++ "/" ++
            cls.collection_name ++ "/" ++ id ++ "/" ++ m) ∧
    (∀ (c : APIClient) (cls : ResourceCls) (kwargs : List (String × QVal)),
        createResourceUrl c { cls with api_root := "a" } kwargs =
          createResourceUrl c { cls with api_root := "n" } kwargs) ∧
    (∀ (c : APIClient) (cls : ResourceCls) (id : String)
        (kwargs : List (String × QVal)),
        updateResourceUrl c { cls with api_root := "a" } id kwargs =
          updateResourceUrl c { cls with api_root := "n" } id kwargs) ∧
    (∀ (c : APIClient) (cls : ResourceCls) (id : String)
        (kwargs : List (String × QVal)),
        deleteResourceUrl c { cls with api_root := "a" } id kwargs =
          deleteResourceUrl c { cls with api_root := "n" } id kwargs) := by
  refine ⟨?_, ?_, ?_, ?_, ?_, ?_⟩
  · intro c cls extra h
    simp [getResourcesUrl, h]
  · intro c cls id extra h
    simp [getResourceRawUrl, h]
  · intro c cls id m h
    simp [callResourceMethodUrl, h]
  · intro c cls kwargs
    rfl
  · intro c cls id kwargs
    rfl
  · intro c cls id kwargs
    rfl

/-- Closed instance of the amended C2: the admin list and sub-action
URLs at a concrete client and resource. -/
theorem admin_namespace_urls_amended_witness :
    getResourcesUrl demoClient adminAccounts none =
      demoClient.api_server ++ "/a/" ++ fmtOpt demoClient.app_id ++ "/" ++
        adminAccounts.collection_name ++ extraPart none ∧
    callResourceMethodUrl demoClient adminAccounts "id-1" "upgrade" =
      demoClient.api_server ++ "/a/" ++ fmtOpt demoClient.app_id ++ "/" ++
        adminAccounts.collection_name ++ "/" ++ "id-1" ++ "/" ++ "upgrade" :=
  ⟨admin_namespace_urls_amended.1 demoClient adminAccounts none rfl,
   admin_namespace_urls_amended.2.2.1 demoClient adminAccounts "id-1" "upgrade" rfl⟩

/-- C10 (implicit): the array-compatibility branch of getOne requires a
non-empty array: on a validated 200 array body, a non-empty array yields
a resource built from the first element only, while an empty array hits
the out-of-bounds first-element access (an IndexError outside the
defined taxonomy). -/
theorem get_resource_array_head :
    ∀ (c : APIClient) (cls : ResourceCls) (resp : HResponse) (xs : List Json),
      resp.status_code = 200 → resp.textJson = some (Json.arr xs) →
      (xs = [] → _get_resource c cls (.ok resp) = .error .indexError) ∧
      (xs = [] → ∀ err : NylasError,
        _get_resource c cls (.ok resp) ≠ .error (.api err)) ∧
      (∀ x tl, xs = x :: tl →
        _get_resource c cls (.ok resp) = RCreate cls x) := by
  intro c cls resp xs h200 hb
  refine ⟨?_, ?_, ?_⟩
  · intro hnil
    simp [_get_resource, _get_resource_raw, nylas_excepted,
      validate_ok resp h200, HResponse.json, hb, hnil, Bind.bind, Except.bind]
  · intro hnil err
    simp [_get_resource, _get_resource_raw, nylas_excepted,
      validate_ok resp h200, HResponse.json, hb, hnil, Bind.bind, Except.bind]
  · intro x tl hcons
    simp [_get_resource, _get_resource_raw, nylas_excepted,
      validate_ok resp h200, HResponse.json, hb, hcons, Bind.bind, Except.bind]

/-- Closed instance of C10: an empty array body gives an IndexError and
never a taxonomy error; a one-element array gives the resource built
from that element. -/
theorem get_resource_array_head_witness :
    _get_resource demoClient eventsCls
      (.ok (respW 200 (some (Json.arr [])))) = .error .indexError ∧
    (∀ err : NylasError, _get_resource demoClient eventsCls
      (.ok (respW 200 (some (Json.arr [])))) ≠ .error (.api err)) ∧
    _get_resource demoClient eventsCls
      (.ok (respW 200 (some (Json.arr [Json.obj [("id", Json.str "a")]])))) =
      .ok { resCls := "events", fields := [("id", Json.str "a")] } :=
  ⟨(get_resource_array_head demoClient eventsCls
      (respW 200 (some (Json.arr []))) [] rfl rfl).1 rfl,
   (get_resource_array_head demoClient eventsCls
      (respW 200 (some (Json.arr []))) [] rfl rfl).2.1 rfl,
   by
     have h := (get_resource_array_head demoClient eventsCls
       (respW 200 (some (Json.arr [Json.obj [("id", Json.str "a")]])))
       [Json.obj [("id", Json.str "a")]] rfl rfl).2.2
       (Json.obj [("id", Json.str "a")]) [] rfl
     simpa [RCreate] using h⟩
